import Mathlib

set_option maxHeartbeats 1000000

/-!
Shallow embedding of the manifest-tree core of this go-containerregistry fork:
the crane flatten engine (flatten, flattenIndex, flattenChild, flattenImage),
the writer sinks (RemoteWriter, LocalWriter), the depth-bounded layout walker
(walk) and the crane platform-resolving walker (find).  Definitions follow the
Go sources; library operations that are not part of the analysed sources
(mutate.*, empty.*, layout.Write, stream.NewLayer, media-type classification)
are modelled from the specification and marked as such.
-/

/-- Content digest, a hex-like string standing for a v1.Hash. -/
structure Hash where
  hex : String
deriving DecidableEq

/-- Platform tuple selecting one image out of a multi-platform index. -/
structure Platform where
  os : String
  architecture : String
  variant : String
deriving DecidableEq

/-- One config-history entry (the v1.History fields the flatten engine writes). -/
structure History where
  createdBy : String
  comment : String
deriving DecidableEq

/-- RootFS of a config file: ordered diff IDs of the uncompressed layers. -/
structure RootFS where
  diffIDs : List Hash
deriving DecidableEq

/-- Image config record (the v1.ConfigFile fields the flatten engine touches). -/
structure ConfigFile where
  architecture : String
  os : String
  history : List History
  rootFS : RootFS
deriving DecidableEq

/-- A content-addressable layer: digest of stored bytes, diff ID of the
uncompressed content, and byte size. -/
structure Layer where
  digest : Hash
  diffID : Hash
  size : Int
deriving DecidableEq

/-- A single-platform image: config, ordered layers, manifest annotations and
manifest media type. -/
structure Image where
  config : ConfigFile
  layers : List Layer
  annotations : List (String × String)
  mediaType : String
deriving DecidableEq

/-- Descriptor: one manifest entry pointing at a child by digest. -/
structure Descriptor where
  mediaType : String
  digest : Hash
  size : Int
  platform : Option Platform
  annotations : List (String × String)
  urls : List String
deriving DecidableEq

/-- A manifest-tree node: an image, an index (ordered children, each a
descriptor paired with the node its digest resolves to, plus top-level
annotations and the index media type), or any other artifact kind (a
Describable that is neither a v1.Image nor a v1.ImageIndex). -/
inductive Node where
  | image (img : Image)
  | index (children : List (Descriptor × Node)) (anns : List (String × String)) (mediaType : String)
  | other (mediaType : String) (payload : String)

/-- OCI image index media type. -/
def ociIndexMT : String := "application/vnd.oci.image.index.v1+json"

/-- Docker manifest list media type. -/
def dockerListMT : String := "application/vnd.docker.distribution.manifest.list.v2+json"

/-- OCI image manifest media type. -/
def ociManifestMT : String := "application/vnd.oci.image.manifest.v1+json"

/-- Docker image manifest media type. -/
def dockerManifestMT : String := "application/vnd.docker.distribution.manifest.v2+json"

/-- Modelled from the spec: media-type classification marks a node as
index-shaped (types.MediaType.IsIndex, not among the analysed sources). -/
def isIndexMT (mt : String) : Bool := mt == ociIndexMT || mt == dockerListMT

/-- Modelled from the spec: media-type classification marks a node as
image-shaped (types.MediaType.IsImage, not among the analysed sources). -/
def isImageMT (mt : String) : Bool := mt == ociManifestMT || mt == dockerManifestMT

/-- Serialization of an annotation mapping. -/
def serializeAnns (a : List (String × String)) : String :=
  String.intercalate "," (a.map (fun kv => kv.1 ++ "=" ++ kv.2))

/-- Serialization of a layer record. -/
def serializeLayer (l : Layer) : String :=
  "layer(" ++ l.digest.hex ++ ";" ++ l.diffID.hex ++ ";" ++ toString l.size ++ ")"

/-- Serialization of one history entry. -/
def serializeHistoryEntry (h : History) : String :=
  "hist(" ++ h.createdBy ++ ";" ++ h.comment ++ ")"

/-- Serialization of a config record. -/
def serializeConfig (c : ConfigFile) : String :=
  "config(" ++ c.architecture ++ ";" ++ c.os ++ ";" ++
    String.intercalate "," (c.history.map serializeHistoryEntry) ++ ";" ++
    String.intercalate "," (c.rootFS.diffIDs.map Hash.hex) ++ ")"

/-- Serialization of an image manifest together with its config. -/
def serializeImage (i : Image) : String :=
  "image(" ++ serializeConfig i.config ++ ";" ++
    String.intercalate "," (i.layers.map serializeLayer) ++ ";" ++
    serializeAnns i.annotations ++ ";" ++ i.mediaType ++ ")"

/-- Serialization of a descriptor. -/
def serializeDesc (d : Descriptor) : String :=
  "desc(" ++ d.mediaType ++ ";" ++ d.digest.hex ++ ";" ++ toString d.size ++ ";" ++
    (match d.platform with
     | some p => p.os ++ "/" ++ p.architecture ++ "/" ++ p.variant
     | none => "-") ++ ";" ++ serializeAnns d.annotations ++ ";" ++
    String.intercalate "," d.urls ++ ")"

mutual

/-- Structural serialization of a node, standing in for the canonical manifest
bytes that content addressing hashes. -/
def serializeNode : Node → String
  | .image i => "img:" ++ serializeImage i
  | .index ch anns mt => "idx:" ++ mt ++ ";" ++ serializeAnns anns ++ ";" ++ serializeChildren ch
  | .other mt payload => "oth:" ++ mt ++ ";" ++ payload

/-- Serialization of an index child list. -/
def serializeChildren : List (Descriptor × Node) → String
  | [] => ""
  | (d, n) :: rest => serializeDesc d ++ "|" ++ serializeNode n ++ "|" ++ serializeChildren rest

end

/-- Digest of a node's serialized manifest content. -/
def nodeDigest (n : Node) : Hash := ⟨"sha256:" ++ serializeNode n⟩

/-- Size of a node's serialized manifest content. -/
def nodeSize (n : Node) : Int := Int.ofNat (serializeNode n).length

/-- ImageWriter sink (the ImageWriter role): remote registry repository or local
OCI-layout destination. -/
inductive ImageWriter where
  | remoteWriter (repo : String)
  | localWriter (dst : String)
deriving DecidableEq

/-- State of the destination: blobs uploaded to the remote repository, and the
image list of the local layout's index (none while the layout does not exist). -/
structure SinkState where
  uploaded : List Layer
  layout : Option (List Image)
deriving DecidableEq

/-- Modelled from the spec: layout.Write creates a local OCI layout at the
destination from the given index when none exists there, and extends the
existing layout otherwise ("commit-image creates (or extends) a local
OCI-layout directory by appending"); layout.Write is not among the analysed
sources. -/
def layoutWrite (existing : Option (List Image)) (ii : List Image) : List Image :=
  match existing with
  | some imgs => imgs
  | none => ii

/-- Modelled from the spec: Path.AppendImage appends the image and its
referenced blobs to the layout's index; not among the analysed sources. -/
def appendImage (lay : List Image) (img : Image) : List Image := lay ++ [img]

/-- LocalWriter.WriteImage: layout.Write at the destination with the empty
index, then AppendImage. -/
def localWriteImage (existing : Option (List Image)) (img : Image) : List Image :=
  appendImage (layoutWrite existing []) img

/-- ImageWriter.WriteLayer: a real blob upload for the remote writer, a no-op
for the local writer. -/
def writeLayer (w : ImageWriter) (st : SinkState) (l : Layer) : SinkState :=
  match w with
  | .remoteWriter _ => { st with uploaded := st.uploaded ++ [l] }
  | .localWriter _ => st

/-- ImageWriter.WriteImage: a no-op for the remote writer, a layout append for
the local writer. -/
def writeImage (w : ImageWriter) (st : SinkState) (img : Image) : SinkState :=
  match w with
  | .remoteWriter _ => st
  | .localWriter _ => { st with layout := some (localWriteImage st.layout img) }

/-- Modelled from the spec: empty.Image, the empty base image (no layers, no
history, no diff IDs, no annotations, Docker manifest media type); not among
the analysed sources. -/
def emptyImage : Image :=
  { config := { architecture := "", os := "", history := [], rootFS := { diffIDs := [] } },
    layers := [], annotations := [], mediaType := dockerManifestMT }

/-- Modelled from the spec: empty.Index, the empty base index (no children, no
annotations, OCI index media type); not among the analysed sources. -/
def emptyIndex : Node := .index [] [] ociIndexMT

/-- Modelled from the spec: mutate.ConfigFile returns a copy of the image
carrying the given config record; not among the analysed sources. -/
def mutateConfigFile (img : Image) (cf : ConfigFile) : Image := { img with config := cf }

/-- Modelled from the spec: mutate.Append appends the layer with its history
entry, keeping config diff IDs in step with the layer list; not among the
analysed sources. -/
def mutateAppend (img : Image) (l : Layer) (h : History) : Image :=
  let cf := img.config
  let cf2 : ConfigFile :=
    { cf with history := cf.history ++ [h], rootFS := { diffIDs := cf.rootFS.diffIDs ++ [l.diffID] } }
  { img with layers := img.layers ++ [l], config := cf2 }

/-- Modelled from the spec: mutate.Annotations reapplies the annotation mapping
onto a new image; not among the analysed sources. -/
def mutateImageAnns (img : Image) (a : List (String × String)) : Image :=
  { img with annotations := a }

/-- Modelled from the spec: mutate.Annotations reapplies the annotation mapping
onto a new index; not among the analysed sources. -/
def mutateIndexAnns (n : Node) (a : List (String × String)) : Node :=
  match n with
  | .index ch _ mt => .index ch a mt
  | x => x

/-- Modelled from the spec: mutate.IndexMediaType overrides the index media
type; not among the analysed sources. -/
def mutateIndexMediaType (n : Node) (mt : String) : Node :=
  match n with
  | .index ch anns _ => .index ch anns mt
  | x => x

/-- Modelled from the spec: mutate.AppendManifests appends the addenda, in
order, to the base index's manifest list; not among the analysed sources. -/
def appendManifests (base : Node) (adds : List (Descriptor × Node)) : Node :=
  match base with
  | .index ch anns mt => .index (ch ++ adds) anns mt
  | x => x

/-- Modelled from the spec: mutate.Extract merges the image's layers, in order,
into one filesystem snapshot and stream.NewLayer wraps it as a single lazily
compressed layer (gzip.BestCompression); neither is among the analysed
sources. -/
def extractedLayer (old : Image) : Layer :=
  let content := String.intercalate "+" (old.layers.map (fun l => l.diffID.hex))
  { digest := ⟨"sha256:gzip:" ++ content⟩,
    diffID := ⟨"sha256:diff:" ++ content⟩,
    size := Int.ofNat content.length }

/-- Modelled from the spec: json.Marshal of the config history list (the audit
trail string). -/
def marshalHistory (hs : List History) : String :=
  "[" ++ String.intercalate "," (hs.map serializeHistoryEntry) ++ "]"

/-- The attestation check inside flattenIndex's child loop: platform present
with OS "unknown" and architecture "unknown". -/
def isAttestation (d : Descriptor) : Bool :=
  match d.platform with
  | some p => p.os == "unknown" && p.architecture == "unknown"
  | none => false

/-- flattenImage: read the old digest and manifest, deep-copy and clear the
config, rebuild from the empty base image, upload one extracted layer through
the sink, append it with a provenance history entry, reapply non-empty
annotations, and commit the image through the sink. -/
def flattenImage (old : Image) (w : ImageWriter) (st : SinkState) (use : String) :
    Except String (Image × SinkState) :=
  let digest := nodeDigest (Node.image old)
  let cf := old.config
  let oldHistory := marshalHistory cf.history
  let cf2 := { cf with rootFS := { diffIDs := [] }, history := [] }
  let img0 := mutateConfigFile emptyImage cf2
  let layer := extractedLayer old
  let st1 := writeLayer w st layer
  let img1 := mutateAppend img0 layer
    { createdBy := use ++ " flatten " ++ digest.hex, comment := oldHistory }
  let img2 := if old.annotations.length != 0 then mutateImageAnns img1 old.annotations else img1
  let st2 := writeImage w st1 img2
  .ok (img2, st2)

mutual

/-- flattenIndex: flatten every non-attestation child in order, recompute each
child descriptor's size and digest from the flattened child, assemble the new
index from the empty base, reapply annotations when non-empty, and reapply the
original index media type. -/
def flattenIndex (ch : List (Descriptor × Node)) (anns : List (String × String))
    (mt : String) (w : ImageWriter) (st : SinkState) (use : String) :
    Except String (Node × SinkState) :=
  match flattenChildren ch w st use with
  | .error e => .error e
  | .ok (adds, st2) =>
    let idx0 := appendManifests emptyIndex adds
    let idx1 := if anns.length != 0 then mutateIndexAnns idx0 anns else idx0
    let idx2 := mutateIndexMediaType idx1 mt
    .ok (idx2, st2)
termination_by 3 * (sizeOf ch + sizeOf anns + sizeOf mt) + 2

/-- The child loop of flattenIndex: keep the old descriptor, skip attestation
children, flatten the child, recompute descriptor size and digest from the
flattened child, and accumulate the addenda in order. -/
def flattenChildren (l : List (Descriptor × Node)) (w : ImageWriter) (st : SinkState)
    (use : String) : Except String (List (Descriptor × Node) × SinkState) :=
  match l with
  | [] => .ok ([], st)
  | (desc, child) :: rest =>
    if isAttestation desc then flattenChildren rest w st use
    else
      match flattenChild child w st use with
      | .error e => .error e
      | .ok (flat, st1) =>
        let desc2 := { desc with size := nodeSize flat, digest := nodeDigest flat }
        match flattenChildren rest w st1 use with
        | .error e => .error e
        | .ok (tail, st2) => .ok ((desc2, flat) :: tail, st2)
termination_by 3 * sizeOf l + 1

/-- flattenChild: dispatch on the child's shape; a child that is neither an
index nor an image is returned unchanged after a logged warning (no error). -/
def flattenChild (n : Node) (w : ImageWriter) (st : SinkState) (use : String) :
    Except String (Node × SinkState) :=
  match n with
  | .index ch anns mt => flattenIndex ch anns mt w st use
  | .image img =>
    match flattenImage img w st use with
    | .error e => .error e
    | .ok (img2, st2) => .ok (.image img2, st2)
  | .other mt payload => .ok (.other mt payload, st)
termination_by 3 * sizeOf n

end

/-- flatten: dispatch on the pulled descriptor's media type; an index or image
flattens recursively, any other media type is an error. -/
def flatten (d : Descriptor) (n : Node) (w : ImageWriter) (st : SinkState) (use : String) :
    Except String (Node × SinkState) :=
  if isIndexMT d.mediaType then
    match n with
    | .index ch anns mt => flattenIndex ch anns mt w st use
    | _ => .error ("reading index " ++ d.digest.hex)
  else if isImageMT d.mediaType then
    match n with
    | .image img =>
      match flattenImage img w st use with
      | .error e => .error e
      | .ok (i2, st2) => .ok (.image i2, st2)
    | _ => .error ("reading image " ++ d.digest.hex)
  else .error ("cannot flatten " ++ d.mediaType)

/-- Depth ceiling of the layout walker. -/
def maxDepth : Nat := 10

mutual

/-- walk (layout read path): fail once the depth reaches the ceiling, read the
index manifest, scan children in order, descend into the first index-shaped
child with an incremented depth, and return the first matching image. -/
def walk (ch : List (Descriptor × Node)) (matcher : Descriptor → Bool) (depth : Nat) :
    Except String (Option Image) :=
  if maxDepth ≤ depth then .error ("max depth exceeded: " ++ toString depth)
  else walkChildren ch matcher depth
termination_by 2 * sizeOf ch + 1

/-- The manifest loop of walk. -/
def walkChildren (l : List (Descriptor × Node)) (matcher : Descriptor → Bool) (depth : Nat) :
    Except String (Option Image) :=
  match l with
  | [] => .ok none
  | (d, n) :: rest =>
    if isIndexMT d.mediaType then
      match n with
      | .index sub _ _ => walk sub matcher (depth + 1)
      | _ => .error ("reading index " ++ d.digest.hex)
    else if isImageMT d.mediaType then
      if matcher d then
        match n with
        | .image img => .ok (some img)
        | _ => .error ("reading image " ++ d.digest.hex)
      else walkChildren rest matcher depth
    else walkChildren rest matcher depth
termination_by 2 * sizeOf l

end

/-- Outcome of crane's find: an image, an error, or a run-time crash caused by
dereferencing a nil platform pointer. -/
inductive FindResult where
  | ok (img : Image)
  | err (msg : String)
  | crash
deriving DecidableEq

/-- Modelled from the spec: v1.Platform.Equals compares the platform tuples;
not among the analysed sources. -/
def platformEquals (a b : Platform) : Bool := a == b

/-- find (crane Read path): scan children in order, descend into the first
index-shaped child, and for an image-shaped child compare the descriptor
platform to the requested platform by dereferencing both pointers; the loop
carries no depth ceiling. -/
def find (ch : List (Descriptor × Node)) (p : Option Platform) : FindResult :=
  match ch with
  | [] => .err "cannot find image for platform"
  | (d, n) :: rest =>
    if isIndexMT d.mediaType then
      match n with
      | .index sub _ _ => find sub p
      | _ => .err ("reading index " ++ d.digest.hex)
    else if isImageMT d.mediaType then
      match d.platform, p with
      | some dp, some tp =>
        if platformEquals dp tp then
          match n with
          | .image img => .ok img
          | _ => .err ("reading image " ++ d.digest.hex)
        else find rest p
      | _, _ => .crash
    else find rest p
termination_by sizeOf ch

/-- A sequence of commits through LocalWriter.WriteImage against the same
destination layout. -/
def commitAll (existing : Option (List Image)) : List Image → Option (List Image)
  | [] => existing
  | img :: rest => commitAll (some (localWriteImage existing img)) rest

/-- Media type of a node. -/
def nodeMediaType : Node → String
  | .image i => i.mediaType
  | .index _ _ mt => mt
  | .other mt _ => mt

/-- Annotations of a node. -/
def nodeAnns : Node → List (String × String)
  | .image i => i.annotations
  | .index _ anns _ => anns
  | .other _ _ => []

/-- Child descriptor/node pairs of an index node. -/
def childPairs : Node → List (Descriptor × Node)
  | .index ch _ _ => ch
  | _ => []

/-- A descriptor with its digest and size erased, for comparisons that ignore
the two recomputed fields. -/
def eraseDigestSize (d : Descriptor) : Descriptor :=
  { d with digest := ⟨""⟩, size := 0 }

/-- The descriptor fields that flattenIndex carries over unchanged from the
original child descriptor. -/
def carriedFields (d : Descriptor) :
    String × Option Platform × List (String × String) × List String :=
  (d.mediaType, d.platform, d.annotations, d.urls)

/-- A descriptor that walk's loop passes over: not index-shaped, and rejected
by the matcher whenever image-shaped. -/
def walkSkips (matcher : Descriptor → Bool) (d : Descriptor) : Prop :=
  isIndexMT d.mediaType = false ∧ (isImageMT d.mediaType = true → matcher d = false)

/-- A descriptor that find's loop passes over: not index-shaped, and whenever
image-shaped it carries a platform that differs from the (present) requested
one. -/
def findSkips (p : Option Platform) (d : Descriptor) : Prop :=
  isIndexMT d.mediaType = false ∧
    (isImageMT d.mediaType = true →
      ∃ dp tp, d.platform = some dp ∧ p = some tp ∧ platformEquals dp tp = false)

/-- Test platform: the default linux/amd64. -/
def tgtPlat : Platform := { os := "linux", architecture := "amd64", variant := "" }

/-- A second platform, distinct from tgtPlat. -/
def otherPlat : Platform := { os := "linux", architecture := "arm64", variant := "" }

/-- A concrete image for the linux/amd64 platform. -/
def tgtImg : Image :=
  { config := { architecture := "amd64", os := "linux", history := [], rootFS := { diffIDs := [] } },
    layers := [], annotations := [], mediaType := ociManifestMT }

/-- Descriptor of tgtImg, carrying its platform. -/
def leafDesc : Descriptor :=
  { mediaType := ociManifestMT, digest := nodeDigest (.image tgtImg),
    size := nodeSize (.image tgtImg), platform := some tgtPlat,
    annotations := [], urls := [] }

/-- A linear chain of nested indices with a matching image at the bottom:
chainCh n is the child list of an index whose single path descends through n
further nested indices before reaching the matching leaf. -/
def chainCh : Nat → List (Descriptor × Node)
  | 0 => [(leafDesc, .image tgtImg)]
  | n + 1 =>
    [({ mediaType := ociIndexMT, digest := ⟨"sub"⟩, size := 0, platform := none,
        annotations := [], urls := [] }, .index (chainCh n) [] ociIndexMT)]

/-- Descriptor matcher comparing the descriptor platform to a given platform. -/
def platMatcher (p : Platform) : Descriptor → Bool := fun d => d.platform == some p

/-- A concrete remote writer. -/
def w0 : ImageWriter := .remoteWriter "registry.example/repo"

/-- The initial sink state: nothing uploaded, no local layout yet. -/
def st0 : SinkState := { uploaded := [], layout := none }

/-- A concrete image carrying an annotation. -/
def imgA : Image :=
  { config := { architecture := "amd64", os := "linux", history := [], rootFS := { diffIDs := [] } },
    layers := [], annotations := [("k", "v")], mediaType := dockerManifestMT }

/-- A second concrete image, distinct from imgA. -/
def imgB : Image :=
  { config := { architecture := "arm64", os := "linux", history := [], rootFS := { diffIDs := [] } },
    layers := [], annotations := [], mediaType := dockerManifestMT }

/-- An image-shaped descriptor with no platform (nil platform pointer). -/
def noPlatDesc : Descriptor :=
  { mediaType := ociManifestMT, digest := ⟨"noplat"⟩, size := 1, platform := none,
    annotations := [], urls := [] }

/-- An image-shaped descriptor for otherPlat (a non-matching platform). -/
def otherDesc : Descriptor :=
  { mediaType := ociManifestMT, digest := ⟨"other"⟩, size := 1, platform := some otherPlat,
    annotations := [], urls := [] }

/-- A child of a media type that is neither image- nor index-shaped. -/
def oddChild : Node := .other "application/vnd.example.sbom" "sbom-payload"

/-- Descriptor of oddChild, with its unsupported media type. -/
def oddDesc : Descriptor :=
  { mediaType := "application/vnd.example.sbom", digest := ⟨"odd"⟩, size := 1, platform := none,
    annotations := [], urls := [] }

/-- Helper: LocalWriter.WriteImage on an existing layout appends the image. -/
theorem localWriteImage_some (L : List Image) (img : Image) :
    localWriteImage (some L) img = L ++ [img] := by
  simp [localWriteImage, layoutWrite, appendImage]

/-- Helper: a commit sequence against an existing layout appends all images in
order. -/
theorem commitAll_some (rest : List Image) (L : List Image) :
    commitAll (some L) rest = some (L ++ rest) := by
  induction rest generalizing L with
  | nil => simp [commitAll]
  | cons r rs ih =>
    simp [commitAll, localWriteImage_some, ih]

/-- C1 counterexample: a child whose media type is neither image- nor
index-shaped does not make the recursive flatten fail; flattenChild returns the
child unchanged with no error. -/
theorem flattenChild_other_no_error :
    flattenChild oddChild w0 st0 "crane" = .ok (oddChild, st0) := by
  simp [flattenChild, oddChild]

/-- C1 (amended): flattenChild returns a child that is neither an index nor an
image unchanged, with no error (the code logs a warning and skips it), while
the top-level flatten dispatcher does fail with an unsupported-media-type error
when the root descriptor's media type is neither index- nor image-shaped. -/
theorem flattenChild_skips_unsupported (mt payload use : String) (w : ImageWriter)
    (st : SinkState) (d : Descriptor) :
    flattenChild (.other mt payload) w st use = .ok (.other mt payload, st) ∧
      (isIndexMT d.mediaType = false → isImageMT d.mediaType = false →
        flatten d (.other mt payload) w st use = .error ("cannot flatten " ++ d.mediaType)) := by
  constructor
  · simp [flattenChild]
  · intro h1 h2
    simp [flatten, h1, h2]

/-- C1 witness: the amended claim at a concrete unsupported child. -/
theorem flattenChild_skips_unsupported_witness :
    isIndexMT oddDesc.mediaType = false ∧ isImageMT oddDesc.mediaType = false ∧
      flattenChild (.other "application/vnd.example.sbom" "sbom-payload") w0 st0 "crane" =
        .ok (.other "application/vnd.example.sbom" "sbom-payload", st0) ∧
      flatten oddDesc (.other "application/vnd.example.sbom" "sbom-payload") w0 st0 "crane" =
        .error ("cannot flatten " ++ oddDesc.mediaType) := by
  refine ⟨by decide, by decide, ?_, ?_⟩
  · exact (flattenChild_skips_unsupported "application/vnd.example.sbom" "sbom-payload" "crane" w0 st0 oddDesc).1
  · exact (flattenChild_skips_unsupported "application/vnd.example.sbom" "sbom-payload" "crane" w0 st0 oddDesc).2
      (by decide) (by decide)

/-- C3: committing a sequence of images one after another to the same local
sink extends the layout by appending; every image of the sequence is present in
the layout's index afterwards. -/
theorem localSink_commits_preserved (existing : Option (List Image))
    (imgs : List Image) (img : Image) (hmem : img ∈ imgs) :
    ∃ lay, commitAll existing imgs = some lay ∧ img ∈ lay := by
  cases imgs with
  | nil => cases hmem
  | cons i rest =>
    refine ⟨localWriteImage existing i ++ rest, ?_, ?_⟩
    · simp [commitAll, commitAll_some]
    · rcases List.mem_cons.mp hmem with h | h
      · subst h
        simp [localWriteImage, appendImage]
      · simp [h]

/-- C3 witness: two images committed in sequence to a fresh local sink; the
first is still present after the second commit. -/
theorem localSink_commits_preserved_witness :
    imgA ∈ [imgA, imgB] ∧
      ∃ lay, commitAll none [imgA, imgB] = some lay ∧ imgA ∈ lay :=
  ⟨by simp, localSink_commits_preserved none [imgA, imgB] imgA (by simp)⟩

/-- C4: for every input image, flattenImage yields exactly one layer and
exactly one config diff ID, regardless of the input layer count. -/
theorem flattenImage_single_layer (old : Image) (w : ImageWriter) (st : SinkState)
    (use : String) :
    (flattenImage old w st use).map
        (fun p => (p.1.layers.length, p.1.config.rootFS.diffIDs.length)) = .ok (1, 1) := by
  simp only [flattenImage, Except.map]
  split <;> simp [mutateImageAnns, mutateAppend, mutateConfigFile, emptyImage]

mutual

/-- Helper: flattenChild always succeeds on in-memory trees. -/
theorem flattenChild_ok (n : Node) (w : ImageWriter) (st : SinkState) (use : String) :
    ∃ m st2, flattenChild n w st use = Except.ok (m, st2) := by
  cases n with
  | image img =>
    cases hf : flattenImage img w st use with
    | error e => simp [flattenImage] at hf
    | ok p => exact ⟨.image p.1, p.2, by simp [flattenChild, hf]⟩
  | other mt payload => exact ⟨.other mt payload, st, by simp [flattenChild]⟩
  | index ch anns mt =>
    obtain ⟨adds, st2, h, _, _⟩ := flattenChildren_ok ch w st use
    cases hf : flattenIndex ch anns mt w st use with
    | error e => simp [flattenIndex, h] at hf
    | ok p => exact ⟨p.1, p.2, by simp [flattenChild, hf]⟩
termination_by 3 * sizeOf n

/-- Helper: the child loop always succeeds and its addenda are exactly the
non-attestation children in order, with descriptors equal to the originals up
to the digest and size recomputed from the flattened child. -/
theorem flattenChildren_ok (l : List (Descriptor × Node)) (w : ImageWriter) (st : SinkState)
    (use : String) :
    ∃ adds st2, flattenChildren l w st use = Except.ok (adds, st2) ∧
      adds.map (fun x => eraseDigestSize x.1) =
        (l.filter (fun x => !isAttestation x.1)).map (fun x => eraseDigestSize x.1) ∧
      ∀ x ∈ adds, x.1.digest = nodeDigest x.2 ∧ x.1.size = nodeSize x.2 := by
  match l with
  | [] => exact ⟨[], st, by simp [flattenChildren]⟩
  | (desc, child) :: rest =>
    by_cases ha : isAttestation desc
    · obtain ⟨adds, st2, h, hmap, hds⟩ := flattenChildren_ok rest w st use
      exact ⟨adds, st2, by simp [flattenChildren, ha, h], by simp [ha, hmap], hds⟩
    · obtain ⟨flat, st1, hc⟩ := flattenChild_ok child w st use
      obtain ⟨tail, st2, ht, hmap, hds⟩ := flattenChildren_ok rest w st1 use
      refine ⟨({ desc with size := nodeSize flat, digest := nodeDigest flat }, flat) :: tail,
        st2, by simp [flattenChildren, ha, hc, ht], ?_, ?_⟩
      · have ha2 : isAttestation desc = false := by simpa using ha
        have hhead :
            eraseDigestSize { desc with size := nodeSize flat, digest := nodeDigest flat } =
              eraseDigestSize desc := rfl
        simp [ha2, List.filter_cons, hhead, hmap]
      · intro x hx
        rcases List.mem_cons.mp hx with h | h
        · subst h; exact ⟨rfl, rfl⟩
        · exact hds x h
termination_by 3 * sizeOf l + 1

end

/-- Helper: the shape of a successful flattenIndex result — the addenda from
the child loop, annotations reapplied when non-empty, the original media type
reapplied. -/
theorem flattenIndex_ok (ch : List (Descriptor × Node)) (anns : List (String × String))
    (mt : String) (w : ImageWriter) (st : SinkState) (use : String) :
    ∃ adds st2,
      flattenIndex ch anns mt w st use =
        Except.ok (Node.index adds (if anns.length != 0 then anns else []) mt, st2) ∧
      adds.map (fun x => eraseDigestSize x.1) =
        (ch.filter (fun x => !isAttestation x.1)).map (fun x => eraseDigestSize x.1) ∧
      ∀ x ∈ adds, x.1.digest = nodeDigest x.2 ∧ x.1.size = nodeSize x.2 := by
  obtain ⟨adds, st2, h, hmap, hds⟩ := flattenChildren_ok ch w st use
  refine ⟨adds, st2, ?_, hmap, hds⟩
  by_cases hc : anns.length != 0 <;>
    simp [flattenIndex, h, appendManifests, emptyIndex, mutateIndexAnns, mutateIndexMediaType, hc]

/-- C5: the flattened index's descriptor sequence is the original child
descriptor sequence with exactly the attestation children (platform OS
"unknown" and architecture "unknown") removed, in the original order, the
descriptors being compared with the recomputed digest and size fields erased. -/
theorem flattenIndex_drops_attestations (ch : List (Descriptor × Node))
    (anns : List (String × String)) (mt : String) (w : ImageWriter) (st : SinkState)
    (use : String) :
    ∃ adds anns2 st2,
      flattenIndex ch anns mt w st use = Except.ok (Node.index adds anns2 mt, st2) ∧
      adds.map (fun x => eraseDigestSize x.1) =
        (ch.filter (fun x => !isAttestation x.1)).map (fun x => eraseDigestSize x.1) := by
  obtain ⟨adds, st2, h, hmap, _⟩ := flattenIndex_ok ch anns mt w st use
  exact ⟨adds, _, st2, h, hmap⟩

/-- C6: flattenIndex preserves the input index's media type, although the new
index is assembled from the blank base index. -/
theorem flattenIndex_preserves_mediaType (ch : List (Descriptor × Node))
    (anns : List (String × String)) (mt : String) (w : ImageWriter) (st : SinkState)
    (use : String) :
    (flattenIndex ch anns mt w st use).map (fun p => nodeMediaType p.1) = Except.ok mt := by
  obtain ⟨adds, st2, h, _, _⟩ := flattenIndex_ok ch anns mt w st use
  simp [h, Except.map, nodeMediaType]

/-- C7: flattening preserves a non-empty annotation mapping exactly, on images
(flattenImage) and on indices (flattenIndex). -/
theorem flatten_preserves_annotations (old : Image) (ch : List (Descriptor × Node))
    (anns : List (String × String)) (mt : String) (w : ImageWriter) (st : SinkState)
    (use : String) :
    (old.annotations ≠ [] →
      (flattenImage old w st use).map (fun p => p.1.annotations) = Except.ok old.annotations) ∧
    (anns ≠ [] →
      (flattenIndex ch anns mt w st use).map (fun p => nodeAnns p.1) = Except.ok anns) := by
  constructor
  · intro h
    have hlen : (old.annotations.length != 0) = true := by
      simp only [bne_iff_ne, ne_eq, List.length_eq_zero]
      exact h
    simp [flattenImage, Except.map, hlen, mutateImageAnns]
  · intro h
    have hlen : (anns.length != 0) = true := by
      simp only [bne_iff_ne, ne_eq, List.length_eq_zero]
      exact h
    obtain ⟨adds, st2, hok, _, _⟩ := flattenIndex_ok ch anns mt w st use
    rw [hok]
    simp [Except.map, nodeAnns, hlen]

/-- C7 witness: concrete non-empty annotations survive flattenImage and
flattenIndex unchanged. -/
theorem flatten_preserves_annotations_witness :
    imgA.annotations ≠ [] ∧ ([("a", "b")] : List (String × String)) ≠ [] ∧
      (flattenImage imgA w0 st0 "crane").map (fun p => p.1.annotations) =
        Except.ok imgA.annotations ∧
      (flattenIndex [] [("a", "b")] ociIndexMT w0 st0 "crane").map (fun p => nodeAnns p.1) =
        Except.ok [("a", "b")] := by
  refine ⟨by simp [imgA], by simp, ?_, ?_⟩
  · exact (flatten_preserves_annotations imgA [] [("a", "b")] ociIndexMT w0 st0 "crane").1
      (by simp [imgA])
  · exact (flatten_preserves_annotations imgA [] [("a", "b")] ociIndexMT w0 st0 "crane").2
      (by simp)

/-- C8: every child retained by flattenIndex keeps its original descriptor's
media type, platform, annotations and URL hints verbatim, while the digest and
size are recomputed from the flattened child it now points to. -/
theorem flattenIndex_descriptor_frame (ch : List (Descriptor × Node))
    (anns : List (String × String)) (mt : String) (w : ImageWriter) (st : SinkState)
    (use : String) :
    ∃ adds anns2 st2,
      flattenIndex ch anns mt w st use = Except.ok (Node.index adds anns2 mt, st2) ∧
      adds.map (fun x => carriedFields x.1) =
        (ch.filter (fun x => !isAttestation x.1)).map (fun x => carriedFields x.1) ∧
      ∀ x ∈ adds, x.1.digest = nodeDigest x.2 ∧ x.1.size = nodeSize x.2 := by
  obtain ⟨adds, st2, hok, hmap, hds⟩ := flattenIndex_ok ch anns mt w st use
  refine ⟨adds, _, st2, hok, ?_, hds⟩
  have h2 := congrArg
    (List.map (fun d : Descriptor => (d.mediaType, d.platform, d.annotations, d.urls))) hmap
  simpa [List.map_map, Function.comp, carriedFields, eraseDigestSize] using h2

/-- Helper: below the ceiling, walk resolves the chain down to the matching
leaf. -/
theorem walk_chain_ok (n : Nat) : ∀ d : Nat, d + n ≤ 9 →
    walk (chainCh n) (platMatcher tgtPlat) d = Except.ok (some tgtImg) := by
  induction n with
  | zero =>
    intro d hd
    have hlt : ¬ maxDepth ≤ d := by simp [maxDepth]; omega
    simp [walk, hlt, chainCh, walkChildren, leafDesc, platMatcher, isIndexMT, isImageMT,
      ociManifestMT, ociIndexMT, dockerListMT, dockerManifestMT, tgtPlat]
  | succ n ih =>
    intro d hd
    have hlt : ¬ maxDepth ≤ d := by simp [maxDepth]; omega
    have hstep := ih (d + 1) (by omega)
    simp [walk, hlt, chainCh, walkChildren, isIndexMT, ociIndexMT, hstep]

/-- Helper: once the ceiling is reachable along the chain, walk fails with the
max-depth error raised at depth 10. -/
theorem walk_chain_err (n : Nat) : ∀ d : Nat, d ≤ 10 → 10 ≤ d + n →
    walk (chainCh n) (platMatcher tgtPlat) d = Except.error "max depth exceeded: 10" := by
  induction n with
  | zero =>
    intro d hd hge
    have hde : d = 10 := by omega
    subst hde
    simp only [walk, maxDepth, le_refl, if_true, ite_true]
    rfl
  | succ n ih =>
    intro d hd hge
    by_cases hdd : d = 10
    · subst hdd
      simp only [walk, maxDepth, le_refl, if_true, ite_true]
      rfl
    · have hlt : ¬ maxDepth ≤ d := by simp [maxDepth]; omega
      have hstep := ih (d + 1) (by omega) (by omega)
      simp [walk, hlt, chainCh, walkChildren, isIndexMT, ociIndexMT, hstep]

/-- Helper: find resolves the chain at any nesting depth, with no ceiling. -/
theorem find_chain_ok (n : Nat) :
    find (chainCh n) (some tgtPlat) = FindResult.ok tgtImg := by
  induction n with
  | zero =>
    simp [find, chainCh, leafDesc, platformEquals, isIndexMT, isImageMT,
      ociManifestMT, ociIndexMT, dockerListMT, dockerManifestMT]
  | succ n ih =>
    simp [find, chainCh, isIndexMT, ociIndexMT, ih]

/-- C2 counterexample: a chain nested beyond the ceiling (12 index levels) on
which crane's find succeeds with the matching image instead of failing with a
max-depth error — find enforces no depth ceiling. -/
theorem find_no_depth_ceiling_counterexample :
    find (chainCh 11) (some tgtPlat) = FindResult.ok tgtImg ∧
      ∀ e, find (chainCh 11) (some tgtPlat) ≠ FindResult.err e := by
  refine ⟨find_chain_ok 11, ?_⟩
  intro e
  rw [find_chain_ok 11]
  exact fun h => FindResult.noConfusion h

/-- C2 (amended): only the layout walker enforces the default-10 depth
ceiling — on a chain whose descent passes 10 nested indices it fails with the
max-depth error, and on a chain 9 levels deep with a matching leaf it
succeeds — while crane's find walks chains of any nesting depth without a
ceiling and succeeds. -/
theorem walk_depth_ceiling (n : Nat) :
    (10 ≤ n → walk (chainCh n) (platMatcher tgtPlat) 0 = Except.error "max depth exceeded: 10") ∧
    (n ≤ 9 → walk (chainCh n) (platMatcher tgtPlat) 0 = Except.ok (some tgtImg)) ∧
    find (chainCh n) (some tgtPlat) = FindResult.ok tgtImg := by
  refine ⟨fun h => walk_chain_err n 0 (by omega) (by omega), fun h => walk_chain_ok n 0 (by omega),
    find_chain_ok n⟩

/-- C2 witness: the ceiling fires on the 10-descent chain and the 9-descent
chain succeeds. -/
theorem walk_depth_ceiling_witness :
    (10 ≤ 10 ∧
      walk (chainCh 10) (platMatcher tgtPlat) 0 = Except.error "max depth exceeded: 10") ∧
    (9 ≤ 9 ∧ walk (chainCh 9) (platMatcher tgtPlat) 0 = Except.ok (some tgtImg)) :=
  ⟨⟨le_refl 10, (walk_depth_ceiling 10).1 (le_refl 10)⟩,
   ⟨le_refl 9, (walk_depth_ceiling 9).2.1 (le_refl 9)⟩⟩

/-- Helper: walk's loop passes over a child whose descriptor it skips. -/
theorem walkChildren_skip (d : Descriptor) (n : Node) (rest : List (Descriptor × Node))
    (matcher : Descriptor → Bool) (depth : Nat) (h : walkSkips matcher d) :
    walkChildren ((d, n) :: rest) matcher depth = walkChildren rest matcher depth := by
  obtain ⟨h1, h2⟩ := h
  rw [walkChildren.eq_def]
  by_cases him : isImageMT d.mediaType
  · simp [h1, him, h2 him]
  · simp [h1, him]

/-- Helper: find's loop passes over a child whose descriptor it skips. -/
theorem find_skip (d : Descriptor) (n : Node) (rest : List (Descriptor × Node))
    (p : Option Platform) (h : findSkips p d) :
    find ((d, n) :: rest) p = find rest p := by
  obtain ⟨h1, h2⟩ := h
  rw [find.eq_def]
  by_cases him : isImageMT d.mediaType
  · obtain ⟨dp, tp, hdp, htp, hne⟩ := h2 him
    simp [h1, him, hdp, htp, hne]
  · simp [h1, him]

/-- C9: both platform-resolving walkers return the result of descending into
the first index-shaped child they encounter — the result equals the walk of
that child's subtree alone, so no sibling after it is examined, even when the
descent finds nothing. -/
theorem walkers_first_index_descent (pre post sub : List (Descriptor × Node))
    (ixd : Descriptor) (nanns : List (String × String)) (nmt : String)
    (matcher : Descriptor → Bool) (depth : Nat) (p : Option Platform)
    (hix : isIndexMT ixd.mediaType = true)
    (hw : ∀ x ∈ pre, walkSkips matcher x.1)
    (hf : ∀ x ∈ pre, findSkips p x.1) :
    walkChildren (pre ++ (ixd, Node.index sub nanns nmt) :: post) matcher depth =
        walk sub matcher (depth + 1) ∧
      find (pre ++ (ixd, Node.index sub nanns nmt) :: post) p = find sub p := by
  induction pre with
  | nil =>
    constructor
    · rw [walkChildren.eq_def]
      simp [hix]
    · rw [find.eq_def]
      simp [hix]
  | cons x xs ih =>
    obtain ⟨d, n⟩ := x
    have hw1 := hw (d, n) (List.mem_cons_self _ _)
    have hf1 := hf (d, n) (List.mem_cons_self _ _)
    have ihr := ih (fun y hy => hw y (List.mem_cons_of_mem _ hy))
      (fun y hy => hf y (List.mem_cons_of_mem _ hy))
    constructor
    · rw [List.cons_append, walkChildren_skip d n _ matcher depth hw1]
      exact ihr.1
    · rw [List.cons_append, find_skip d n _ p hf1]
      exact ihr.2

/-- C9 witness: with one skipped sibling before a nested index child and one
matching sibling after it, both walkers return exactly the result of the
descent into the (empty) nested index. -/
theorem walkers_first_index_descent_witness :
    isIndexMT ociIndexMT = true ∧
      (walkChildren ([(otherDesc, Node.image imgB)] ++
          ({ mediaType := ociIndexMT, digest := ⟨"idx"⟩, size := 0, platform := none,
             annotations := [], urls := [] }, Node.index [] [] ociIndexMT) ::
          [(leafDesc, Node.image tgtImg)]) (platMatcher tgtPlat) 0 =
        walk [] (platMatcher tgtPlat) 1) ∧
      (find ([(otherDesc, Node.image imgB)] ++
          ({ mediaType := ociIndexMT, digest := ⟨"idx"⟩, size := 0, platform := none,
             annotations := [], urls := [] }, Node.index [] [] ociIndexMT) ::
          [(leafDesc, Node.image tgtImg)]) (some tgtPlat) =
        find [] (some tgtPlat)) := by
  refine ⟨by decide, ?_⟩
  have h := walkers_first_index_descent [(otherDesc, Node.image imgB)]
    [(leafDesc, Node.image tgtImg)] []
    { mediaType := ociIndexMT, digest := ⟨"idx"⟩, size := 0, platform := none,
      annotations := [], urls := [] } [] ociIndexMT
    (platMatcher tgtPlat) 0 (some tgtPlat) (by decide)
    (fun x hx => by
      simp only [List.mem_singleton] at hx
      subst hx
      exact ⟨by decide, fun _ => by decide⟩)
    (fun x hx => by
      simp only [List.mem_singleton] at hx
      subst hx
      exact ⟨by decide, fun _ => ⟨otherPlat, tgtPlat, rfl, rfl, by decide⟩⟩)
  exact h

/-- C10 counterexample: an index that contains an image-shaped child with an
absent (nil) platform, yet the walk returns a result — the matching first
child wins before the nil platform is ever dereferenced. -/
theorem find_nil_platform_counterexample :
    find [(leafDesc, Node.image tgtImg), (noPlatDesc, Node.image imgB)] (some tgtPlat) =
        FindResult.ok tgtImg ∧
      FindResult.ok tgtImg ≠ FindResult.crash := by
  constructor
  · simp [find, leafDesc, platformEquals, isIndexMT, isImageMT,
      ociManifestMT, ociIndexMT, dockerListMT, dockerManifestMT]
  · exact fun h => FindResult.noConfusion h

/-- C10 (amended): when find's scan reaches an image-shaped child whose
platform is absent — no earlier child is index-shaped or an accepted image —
the platform comparison dereferences the nil platform and the walk crashes,
returning neither a result nor an error. -/
theorem find_nil_platform_crash (pre rest : List (Descriptor × Node)) (d : Descriptor)
    (n : Node) (p : Option Platform)
    (hf : ∀ x ∈ pre, findSkips p x.1)
    (h1 : isIndexMT d.mediaType = false)
    (h2 : isImageMT d.mediaType = true)
    (h3 : d.platform = none) :
    find (pre ++ (d, n) :: rest) p = FindResult.crash := by
  induction pre with
  | nil =>
    rw [List.nil_append, find.eq_def]
    simp [h1, h2, h3]
  | cons x xs ih =>
    obtain ⟨dx, nx⟩ := x
    have hf1 := hf (dx, nx) (List.mem_cons_self _ _)
    rw [List.cons_append, find_skip dx nx _ p hf1]
    exact ih (fun y hy => hf y (List.mem_cons_of_mem _ hy))

/-- C10 witness: the amended claim at a concrete nil-platform child reached
first. -/
theorem find_nil_platform_crash_witness :
    isIndexMT noPlatDesc.mediaType = false ∧ isImageMT noPlatDesc.mediaType = true ∧
      noPlatDesc.platform = none ∧
      find [(noPlatDesc, Node.image imgB)] (some tgtPlat) = FindResult.crash := by
  refine ⟨by decide, by decide, rfl, ?_⟩
  exact find_nil_platform_crash [] [] noPlatDesc (Node.image imgB) (some tgtPlat)
    (fun x hx => by cases hx) (by decide) (by decide) rfl
